import Mathlib

/-!
Shallow embedding of the copytrader simulation-and-ledger core:
the stats tracker (`src/unnamed/part_000`, class `StatsTracker`), the MEV
sniper / opportunity evaluator (`src/src/trading/mev.ts`, class `MEVSniper`),
the mempool monitor / opportunity generator (`src/src/trading/mempool.ts`,
class `MempoolMonitor`), together with the configuration constants
(`src/unnamed/part_003`) and fee conversion helpers (`src/unnamed/part_001`).

JavaScript `number` values (balances, prices, quantities, fees) are modelled
as rationals `ℚ`; identifiers and symbols as `String`; timestamps as `ℤ`.
In-place mutation of the per-user `UserStats` record is modelled as explicit
state passing: `addTrade` takes the stats record before and returns the
record after.
-/

namespace Copytrader

/-- `Trade['type']` from `src/src/types.ts`: `'buy' | 'sell'`. -/
inductive TradeType where
  | buy
  | sell
  deriving DecidableEq, Repr

/-- `Trade['status']` from `src/src/types.ts`: `'pending' | 'completed' | 'failed'`. -/
inductive TradeStatus where
  | pending
  | completed
  | failed
  deriving DecidableEq, Repr

/-- The `Trade` interface from `src/src/types.ts`. -/
structure Trade where
  id : String
  timestamp : ℤ
  type : TradeType
  tokenAddress : String
  tokenSymbol : String
  amount : ℚ
  price : ℚ
  gasUsed : ℚ
  gasFee : ℚ
  totalCost : ℚ
  profit : Option ℚ
  status : TradeStatus
  deriving DecidableEq, Repr

/-- The `Position` interface from `src/src/types.ts`. -/
structure Position where
  tokenAddress : String
  tokenSymbol : String
  amount : ℚ
  entryPrice : ℚ
  currentPrice : ℚ
  unrealizedPnL : ℚ
  entryTime : ℤ
  deriving DecidableEq, Repr

/-- The `UserStats` interface from `src/src/types.ts`. -/
structure UserStats where
  userId : ℤ
  balance : ℚ
  totalTrades : ℕ
  successfulTrades : ℕ
  failedTrades : ℕ
  totalProfit : ℚ
  totalFees : ℚ
  winRate : ℚ
  activePositions : List Position
  tradeHistory : List Trade
  deriving DecidableEq, Repr

/-- The `BotConfig` interface from `src/src/types.ts`. -/
structure BotConfig where
  demoMode : Bool
  initialBalance : ℚ
  maxSlippage : ℚ
  gasLimit : ℚ
  minGasPrice : ℚ
  maxGasPrice : ℚ
  deriving DecidableEq, Repr

/-- The `config` constant from `src/unnamed/part_003` with the default
`INITIAL_BALANCE` of 20 (no environment override). -/
def config : BotConfig :=
  { demoMode := true
    initialBalance := 20
    maxSlippage := 1/2
    gasLimit := 200000
    minGasPrice := 5
    maxGasPrice := 50 }

/-- `ETH_PRICE_USD` from `src/unnamed/part_003`. -/
def ETH_PRICE_USD : ℚ := 2300

/-- `EUR_USD_RATE` from `src/unnamed/part_003`. -/
def EUR_USD_RATE : ℚ := 11/10

/-- One entry of `DEMO_TOKENS` from `src/unnamed/part_003`. -/
structure DemoToken where
  symbol : String
  address : String
  price : ℚ
  deriving DecidableEq, Repr

/-- `DEMO_TOKENS` from `src/unnamed/part_003`. -/
def DEMO_TOKENS : List DemoToken :=
  [ { symbol := "PEPE", address := "0x6982508145454Ce325dDbE47a25d4ec3d2311933", price := 1/100000 }
  , { symbol := "SHIB", address := "0x95aD61b0a150d79219dCF64E1E6Cc01f0B64C4cE", price := 2/100000 }
  , { symbol := "DOGE", address := "0xba2ae424d960c26247dd6c32edc70b295c744c43", price := 8/100 }
  , { symbol := "FLOKI", address := "0xcf0C122c6b73ff809C693DB761e7BaeBe62b6a2E", price := 15/100000 } ]

/-- `calculateGasFee(gasUsed, gasPrice)` from `src/unnamed/part_001`:
gas price in gwei, result in ETH. -/
def calculateGasFee (gasUsed gasPrice : ℚ) : ℚ :=
  (gasUsed * gasPrice) / 1000000000

/-- `ethToEur(ethAmount, ethPriceUsd, eurUsdRate)` from `src/unnamed/part_001`. -/
def ethToEur (ethAmount ethPriceUsd eurUsdRate : ℚ) : ℚ :=
  (ethAmount * ethPriceUsd) / eurUsdRate

/-- The fresh `UserStats` record that `StatsTracker.getUserStats` (and
`resetStats`) in `src/unnamed/part_000` installs for a user: configured
initial balance, all counters zero, no positions, no history. -/
def initialStats (userId : ℤ) : UserStats :=
  { userId := userId
    balance := config.initialBalance
    totalTrades := 0
    successfulTrades := 0
    failedTrades := 0
    totalProfit := 0
    totalFees := 0
    winRate := 0
    activePositions := []
    tradeHistory := [] }

/-- Replace the first list element satisfying `p` by its image under `f`,
leaving everything else in place.  Models the in-place mutation of the
`Position` object returned by `Array.prototype.find`. -/
def updateFirst (p : α → Bool) (f : α → α) : List α → List α
  | [] => []
  | x :: xs => if p x then f x :: xs else x :: updateFirst p f xs

/-- Remove the first list element satisfying `p`, leaving everything else in
place.  Models `Array.prototype.splice(posIndex, 1)` at the index returned by
`findIndex`. -/
def removeFirst (p : α → Bool) : List α → List α
  | [] => []
  | x :: xs => if p x then xs else x :: removeFirst p xs

/-- The position-list effect of the completed-buy branch of
`StatsTracker.addTrade` (`src/unnamed/part_000`): if a position for the
trade's token exists, average down its entry price and sum the amounts;
otherwise push a fresh position with entry price = trade price. -/
def upsertBuyPosition (positions : List Position) (trade : Trade) : List Position :=
  if positions.any (fun p => p.tokenAddress == trade.tokenAddress) then
    updateFirst (fun p => p.tokenAddress == trade.tokenAddress)
      (fun p =>
        let totalAmount := p.amount + trade.amount
        { p with
            entryPrice := (p.entryPrice * p.amount + trade.price * trade.amount) / totalAmount
            amount := totalAmount })
      positions
  else
    positions ++
      [{ tokenAddress := trade.tokenAddress
         tokenSymbol := trade.tokenSymbol
         amount := trade.amount
         entryPrice := trade.price
         currentPrice := trade.price
         unrealizedPnL := 0
         entryTime := trade.timestamp }]

/-- `StatsTracker.addTrade(userId, trade)` from `src/unnamed/part_000`,
as a function from the user's stats record before to the record after.
Every line mirrors a statement of the source:
history unshift + trim to 50, counter and fee accumulation, the
completed-buy / completed-sell / failed branches, and the win-rate
recomputation at the end. -/
def addTrade (stats : UserStats) (trade : Trade) : UserStats :=
  let history1 := trade :: stats.tradeHistory
  let history2 := if history1.length > 50 then history1.take 50 else history1
  let s1 : UserStats :=
    { stats with
        tradeHistory := history2
        totalTrades := stats.totalTrades + 1
        totalFees := stats.totalFees + trade.gasFee }
  let s2 : UserStats :=
    if trade.status = TradeStatus.completed then
      let s := { s1 with successfulTrades := s1.successfulTrades + 1 }
      match trade.type with
      | TradeType.buy =>
          { s with
              activePositions := upsertBuyPosition s.activePositions trade
              balance := s.balance - trade.totalCost }
      | TradeType.sell =>
          match s.activePositions.find? (fun p => p.tokenAddress == trade.tokenAddress) with
          | some position =>
              let profit := (trade.price - position.entryPrice) * trade.amount
              let s := { s with totalProfit := s.totalProfit + profit }
              let s :=
                if trade.amount ≥ position.amount then
                  { s with
                      activePositions :=
                        removeFirst (fun p => p.tokenAddress == trade.tokenAddress)
                          s.activePositions }
                else
                  { s with
                      activePositions :=
                        updateFirst (fun p => p.tokenAddress == trade.tokenAddress)
                          (fun p => { p with amount := p.amount - trade.amount })
                          s.activePositions }
              { s with balance := s.balance + trade.totalCost }
          | none => { s with balance := s.balance + trade.totalCost }
    else if trade.status = TradeStatus.failed then
      { s1 with
          failedTrades := s1.failedTrades + 1
          balance := s1.balance - trade.gasFee }
    else s1
  { s2 with
      winRate :=
        if s2.totalTrades > 0 then
          ((s2.successfulTrades : ℚ) / (s2.totalTrades : ℚ)) * 100
        else 0 }

/-- `MempoolTransaction['type']` from `src/src/types.ts`:
`'swap' | 'transfer' | 'unknown'`. -/
inductive TxType where
  | swap
  | transfer
  | unknown
  deriving DecidableEq, Repr

/-- The `MempoolTransaction` interface from `src/src/types.ts`.  The source
stores `gasPrice` and `amountIn` as decimal strings and parses them with
`parseFloat`; they are modelled directly by their parsed numeric values
(`amountIn` keeps its optionality, `parseFloat(tx.amountIn || '0')` becomes
`tx.amountIn.getD 0`).  `from` and `to` are renamed `fromAddr` and
`toAddr` because both are reserved words in Lean. -/
structure MempoolTransaction where
  hash : String
  fromAddr : String
  toAddr : String
  value : String
  gasPrice : ℚ
  timestamp : ℤ
  type : TxType
  tokenIn : Option String
  tokenOut : Option String
  amountIn : Option ℚ
  amountOut : Option String
  deriving DecidableEq, Repr

/-- The `{ shouldSnipe, reason }` result of `MEVSniper.analyzeAndSnipe`. -/
structure SnipeDecision where
  shouldSnipe : Bool
  reason : String
  deriving DecidableEq, Repr

/-- `MEVSniper.analyzeAndSnipe(tx)` from `src/src/trading/mev.ts`.
The user's current balance (read from the stats tracker in the source) is
passed explicitly, and the `Math.random() > 0.3` draw deciding the
acceptance reason is passed as the Boolean `willSucceed`. -/
def analyzeAndSnipe (tx : MempoolTransaction) (balance : ℚ) (willSucceed : Bool) :
    SnipeDecision :=
  if tx.type ≠ TxType.swap then
    { shouldSnipe := false, reason := "Not a swap transaction" }
  else if balance < 1 then
    { shouldSnipe := false, reason := "Insufficient balance" }
  else
    let isBuy := tx.tokenIn == some "ETH"
    if !isBuy then
      { shouldSnipe := false, reason := "Not a buy transaction" }
    else
      let txValueEth := tx.amountIn.getD 0
      if txValueEth < 1/2 then
        { shouldSnipe := false, reason := "Transaction too small" }
      else
        { shouldSnipe := true
          reason := if willSucceed then "Good opportunity detected" else "Competition too high" }

/-- The random draws consumed by one call of `MEVSniper.executeTrade`:
`tradeRand`, `gasRand`, `slipRand` are the three `Math.random()` results
(each in `[0,1)`), `willSucceed` is the coin of the inner
`analyzeAndSnipe` call, and `tradeId` / `now` stand for the random id and
`Date.now()`. -/
structure ExecRandom where
  tradeRand : ℚ
  gasRand : ℚ
  slipRand : ℚ
  willSucceed : Bool
  tradeId : String
  now : ℤ
  deriving Repr

/-- The draws of `ExecRandom` lie in the ranges `Math.random()` produces. -/
def ExecRandom.Valid (r : ExecRandom) : Prop :=
  0 ≤ r.tradeRand ∧ r.tradeRand < 1 ∧
  0 ≤ r.gasRand ∧ r.gasRand < 1 ∧
  0 ≤ r.slipRand ∧ r.slipRand < 1

instance (r : ExecRandom) : Decidable r.Valid := by
  unfold ExecRandom.Valid; infer_instance

/-- `MEVSniper.executeTrade(tx)` from `src/src/trading/mev.ts`, as a pure
function of the user's current stats, the triggering transaction and the
random draws.  The returned `Trade` is exactly the object literal the source
builds; the source then submits it through `statsTracker.addTrade`. -/
def executeTrade (cfg : BotConfig) (stats : UserStats) (tx : MempoolTransaction)
    (r : ExecRandom) : Trade :=
  let token :=
    (DEMO_TOKENS.find? (fun t => some t.symbol == tx.tokenOut)).getD
      (DEMO_TOKENS.get ⟨0, by decide⟩)
  let tradePercentage := 1/10 + r.tradeRand * (2/10)
  let tradeAmountEur := min (stats.balance * tradePercentage) (stats.balance - 1)
  let baseGas := tx.gasPrice
  let ourGasPrice := baseGas + 1
  let gasUsed := cfg.gasLimit * (6/10 + r.gasRand * (2/10))
  let gasFeeEth := calculateGasFee gasUsed ourGasPrice
  let gasFeeEur := ethToEur gasFeeEth ETH_PRICE_USD EUR_USD_RATE
  let slippage := 1/1000 + r.slipRand * (4/1000)
  let effectiveTradeAmount := tradeAmountEur - gasFeeEur
  let tokensReceived := (effectiveTradeAmount * (1 - slippage)) / token.price
  let analysis := analyzeAndSnipe tx stats.balance r.willSucceed
  let status :=
    if analysis.reason == "Good opportunity detected" then TradeStatus.completed
    else TradeStatus.failed
  { id := r.tradeId
    timestamp := r.now
    type := TradeType.buy
    tokenAddress := token.address
    tokenSymbol := token.symbol
    amount := if status = TradeStatus.completed then tokensReceived else 0
    price := token.price
    gasUsed := gasUsed
    gasFee := gasFeeEur
    totalCost := if status = TradeStatus.completed then tradeAmountEur else gasFeeEur
    profit := none
    status := status }

/-- The random draws consumed by one call of `MEVSniper.sellPosition`:
`priceRand` and `gasRand` are the two `Math.random()` results, `tradeId` and
`now` stand for the random id and `Date.now()`. -/
structure SellRandom where
  priceRand : ℚ
  gasRand : ℚ
  tradeId : String
  now : ℤ
  deriving Repr

/-- The draws of `SellRandom` lie in the ranges `Math.random()` produces. -/
def SellRandom.Valid (r : SellRandom) : Prop :=
  0 ≤ r.priceRand ∧ r.priceRand < 1 ∧ 0 ≤ r.gasRand ∧ r.gasRand < 1

instance (r : SellRandom) : Decidable r.Valid := by
  unfold SellRandom.Valid; infer_instance

/-- `MEVSniper.sellPosition(tokenAddress, percentage)` from
`src/src/trading/mev.ts`, as a pure function of the user's current stats and
the random draws: `none` when no position matches (`return null`), otherwise
the completed sell `Trade` the source builds and submits to the ledger. -/
def sellPosition (cfg : BotConfig) (stats : UserStats) (tokenAddress : String)
    (percentage : ℚ) (r : SellRandom) : Option Trade :=
  match stats.activePositions.find? (fun p => p.tokenAddress == tokenAddress) with
  | none => none
  | some position =>
    let sellAmount := position.amount * (percentage / 100)
    let priceChange := -(5/100) + r.priceRand * (2/10)
    let currentPrice := position.entryPrice * (1 + priceChange)
    let gasPrice := cfg.minGasPrice + r.gasRand * (cfg.maxGasPrice - cfg.minGasPrice)
    let gasUsed := cfg.gasLimit * (7/10)
    let gasFeeEth := calculateGasFee gasUsed gasPrice
    let gasFeeEur := ethToEur gasFeeEth ETH_PRICE_USD EUR_USD_RATE
    let sellValueEur := sellAmount * currentPrice
    let netValue := sellValueEur - gasFeeEur
    some
      { id := r.tradeId
        timestamp := r.now
        type := TradeType.sell
        tokenAddress := position.tokenAddress
        tokenSymbol := position.tokenSymbol
        amount := sellAmount
        price := currentPrice
        gasUsed := gasUsed
        gasFee := gasFeeEur
        totalCost := netValue
        profit := some ((currentPrice - position.entryPrice) * sellAmount)
        status := TradeStatus.completed }

/-- The state of the `MempoolMonitor` singleton from
`src/src/trading/mempool.ts`.  `listeners` is the key set of the
`Map<number, callback>` (all callbacks receive the same transaction, so a
subscriber is identified by its userId); `pendingTimer = some k` means the
`setTimeout` handle stored in `monitoringInterval` is scheduled and will
fire (cleared or consumed timers are `none`); `nextTimer` is a fresh-handle
counter so that a newly scheduled timeout is distinguishable from every
earlier one. -/
structure MonitorState where
  listeners : Finset ℤ
  isMonitoring : Bool
  pendingTimer : Option ℕ
  nextTimer : ℕ
  deriving DecidableEq

/-- The monitor before any subscription: empty listener map,
`isMonitoring = false`, no timer scheduled. -/
def initialMonitor : MonitorState :=
  { listeners := ∅, isMonitoring := false, pendingTimer := none, nextTimer := 0 }

/-- `MempoolMonitor.startMonitoring(userId, callback)` from
`src/src/trading/mempool.ts`: register the listener; if not already
monitoring, set the flag and schedule a fresh timeout
(`simulateMempoolActivity` → `scheduleNext`). -/
def startMonitoring (s : MonitorState) (u : ℤ) : MonitorState :=
  let s1 := { s with listeners := insert u s.listeners }
  if !s1.isMonitoring then
    { s1 with
        isMonitoring := true
        pendingTimer := some s1.nextTimer
        nextTimer := s1.nextTimer + 1 }
  else s1

/-- `MempoolMonitor.stopMonitoring(userId)` from `src/src/trading/mempool.ts`:
remove the listener; if none remain, clear the flag and cancel the pending
timeout (`clearInterval(this.monitoringInterval)`). -/
def stopMonitoring (s : MonitorState) (u : ℤ) : MonitorState :=
  let s1 := { s with listeners := s.listeners.erase u }
  if s1.listeners = ∅ then
    { s1 with isMonitoring := false, pendingTimer := none }
  else s1

/-- The body of the `setTimeout` callback in `scheduleNext`
(`src/src/trading/mempool.ts`): the scheduled timer fires and is consumed;
if `isMonitoring` still holds, `generateSimulatedTransaction` broadcasts one
transaction to every registered listener (`listeners.forEach`) and
`scheduleNext` schedules a fresh timeout; otherwise nothing is emitted and
nothing is rescheduled.  The second component is `some` of the set of
listeners that received the generated event, or `none` when no event was
generated. -/
def fireTimer (s : MonitorState) : MonitorState × Option (Finset ℤ) :=
  if s.isMonitoring then
    ({ s with pendingTimer := some s.nextTimer, nextTimer := s.nextTimer + 1 },
      some s.listeners)
  else
    ({ s with pendingTimer := none }, none)

/-- One discrete transition of the monitor: a subscription, an
unsubscription, or the firing of the currently pending timeout (only
enabled when one is scheduled).  The label carries the broadcast set of an
emitted event, `none` when the step emits nothing. -/
inductive MonitorStep : MonitorState → Option (Finset ℤ) → MonitorState → Prop where
  | start (s : MonitorState) (u : ℤ) : MonitorStep s none (startMonitoring s u)
  | stop (s : MonitorState) (u : ℤ) : MonitorStep s none (stopMonitoring s u)
  | fire (s : MonitorState) (k : ℕ) :
      s.pendingTimer = some k → MonitorStep s (fireTimer s).2 (fireTimer s).1

/-- Monitor states reachable from `initialMonitor` through `MonitorStep`. -/
inductive MonitorReachable : MonitorState → Prop where
  | init : MonitorReachable initialMonitor
  | step (s s' : MonitorState) (out : Option (Finset ℤ)) :
      MonitorReachable s → MonitorStep s out s' → MonitorReachable s'

/-- The shape of every transaction `generateSimulatedTransaction`
(`src/src/trading/mempool.ts`) produces: a `swap` whose gas price
`(10 + Math.random() * 40).toFixed(0)` lies in `[10, 50]`, trading between
`ETH` and one of the `DEMO_TOKENS`, with `amountIn` drawn from
`0.1 + Math.random() * 2`. -/
def IsGeneratedTx (tx : MempoolTransaction) : Prop :=
  tx.type = TxType.swap ∧
  10 ≤ tx.gasPrice ∧ tx.gasPrice ≤ 50 ∧
  ∃ token ∈ DEMO_TOKENS, ∃ isBuy : Bool, ∃ amountEth : ℚ,
    1/10 ≤ amountEth ∧ amountEth < 21/10 ∧
    tx.tokenIn = some (if isBuy then "ETH" else token.symbol) ∧
    tx.tokenOut = some (if isBuy then token.symbol else "ETH") ∧
    tx.amountIn = some amountEth

/-- User ledger states reachable from the configured initial balance through
the program's own mutation paths (`src/unnamed/part_002`,
`handleMempoolTransaction` and `handleSell`): a generated mempool
transaction the evaluator accepts (`analyzeAndSnipe(...).shouldSnipe`)
leads to `executeTrade` whose resulting trade — completed or failed — is
applied by `addTrade`; a sell through `sellPosition` (UI percentages are in
`(0,100]`) is applied by `addTrade`. -/
inductive Reachable : UserStats → Prop where
  | init (userId : ℤ) : Reachable (initialStats userId)
  | snipe (s : UserStats) (tx : MempoolTransaction) (w : Bool) (r : ExecRandom) :
      Reachable s → IsGeneratedTx tx → r.Valid →
      (analyzeAndSnipe tx s.balance w).shouldSnipe = true →
      Reachable (addTrade s (executeTrade config s tx r))
  | sellStep (s : UserStats) (addr : String) (pct : ℚ) (r : SellRandom) (t : Trade) :
      Reachable s → r.Valid → 0 < pct → pct ≤ 100 →
      sellPosition config s addr pct r = some t →
      Reachable (addTrade s t)

/-! ### Branch characterizations of `addTrade` -/

theorem history_trim_eq_take (t : Trade) (h : List Trade) :
    (if (t :: h).length > 50 then (t :: h).take 50 else t :: h) = (t :: h).take 50 := by
  split
  · rfl
  · exact (List.take_of_length_le (by omega)).symm

theorem addTrade_failed (s : UserStats) (t : Trade) (h : t.status = TradeStatus.failed) :
    addTrade s t =
      { s with
          tradeHistory := (t :: s.tradeHistory).take 50
          totalTrades := s.totalTrades + 1
          totalFees := s.totalFees + t.gasFee
          failedTrades := s.failedTrades + 1
          balance := s.balance - t.gasFee
          winRate := ((s.successfulTrades : ℚ) / ((s.totalTrades : ℚ) + 1)) * 100 } := by
  simp [addTrade, h, history_trim_eq_take]

theorem addTrade_completed_buy (s : UserStats) (t : Trade)
    (hs : t.status = TradeStatus.completed) (ht : t.type = TradeType.buy) :
    addTrade s t =
      { s with
          tradeHistory := (t :: s.tradeHistory).take 50
          totalTrades := s.totalTrades + 1
          totalFees := s.totalFees + t.gasFee
          successfulTrades := s.successfulTrades + 1
          activePositions := upsertBuyPosition s.activePositions t
          balance := s.balance - t.totalCost
          winRate := (((s.successfulTrades : ℚ) + 1) / ((s.totalTrades : ℚ) + 1)) * 100 } := by
  simp [addTrade, hs, ht, history_trim_eq_take]

theorem addTrade_completed_sell_none (s : UserStats) (t : Trade)
    (hs : t.status = TradeStatus.completed) (ht : t.type = TradeType.sell)
    (hf : s.activePositions.find? (fun p => p.tokenAddress == t.tokenAddress) = none) :
    addTrade s t =
      { s with
          tradeHistory := (t :: s.tradeHistory).take 50
          totalTrades := s.totalTrades + 1
          totalFees := s.totalFees + t.gasFee
          successfulTrades := s.successfulTrades + 1
          balance := s.balance + t.totalCost
          winRate := (((s.successfulTrades : ℚ) + 1) / ((s.totalTrades : ℚ) + 1)) * 100 } := by
  simp [addTrade, hs, ht, hf, history_trim_eq_take]

theorem addTrade_completed_sell_some (s : UserStats) (t : Trade) (pos : Position)
    (hs : t.status = TradeStatus.completed) (ht : t.type = TradeType.sell)
    (hf : s.activePositions.find? (fun p => p.tokenAddress == t.tokenAddress) = some pos) :
    addTrade s t =
      { s with
          tradeHistory := (t :: s.tradeHistory).take 50
          totalTrades := s.totalTrades + 1
          totalFees := s.totalFees + t.gasFee
          successfulTrades := s.successfulTrades + 1
          totalProfit := s.totalProfit + (t.price - pos.entryPrice) * t.amount
          activePositions :=
            if t.amount ≥ pos.amount then
              removeFirst (fun p => p.tokenAddress == t.tokenAddress) s.activePositions
            else
              updateFirst (fun p => p.tokenAddress == t.tokenAddress)
                (fun p => { p with amount := p.amount - t.amount }) s.activePositions
          balance := s.balance + t.totalCost
          winRate := (((s.successfulTrades : ℚ) + 1) / ((s.totalTrades : ℚ) + 1)) * 100 } := by
  by_cases hc : pos.amount ≤ t.amount <;>
    simp [addTrade, hs, ht, hf, history_trim_eq_take, ge_iff_le, hc]

theorem addTrade_pending (s : UserStats) (t : Trade) (h : t.status = TradeStatus.pending) :
    addTrade s t =
      { s with
          tradeHistory := (t :: s.tradeHistory).take 50
          totalTrades := s.totalTrades + 1
          totalFees := s.totalFees + t.gasFee
          winRate := ((s.successfulTrades : ℚ) / ((s.totalTrades : ℚ) + 1)) * 100 } := by
  simp [addTrade, h, history_trim_eq_take]

/-! ### Sample data used by the concrete witnesses -/

/-- A sample open position: 1000 PEPE at entry price 0.00001. -/
def samplePosition : Position :=
  { tokenAddress := "0x6982508145454Ce325dDbE47a25d4ec3d2311933"
    tokenSymbol := "PEPE"
    amount := 1000
    entryPrice := 1/100000
    currentPrice := 1/100000
    unrealizedPnL := 0
    entryTime := 0 }

/-- A sample ledger holding `samplePosition`. -/
def sampleStats : UserStats :=
  { initialStats 7 with activePositions := [samplePosition] }

/-- A sample completed buy trade (the §8 scenario of the spec: 1000 units at
price 0.00001, fee 0.05, total cost 2.05). -/
def sampleBuy : Trade :=
  { id := "b1", timestamp := 1, type := TradeType.buy
    tokenAddress := "0x6982508145454Ce325dDbE47a25d4ec3d2311933"
    tokenSymbol := "PEPE", amount := 1000, price := 1/100000
    gasUsed := 140000, gasFee := 1/20, totalCost := 41/20
    profit := none, status := TradeStatus.completed }

/-- A sample completed sell trade of 500 PEPE at price 0.000012. -/
def sampleSell : Trade :=
  { id := "s1", timestamp := 2, type := TradeType.sell
    tokenAddress := "0x6982508145454Ce325dDbE47a25d4ec3d2311933"
    tokenSymbol := "PEPE", amount := 500, price := 12/1000000
    gasUsed := 140000, gasFee := 1/20, totalCost := 111/20000
    profit := some (1/1000), status := TradeStatus.completed }

/-- A sample failed trade with fee 0.03. -/
def sampleFailed : Trade :=
  { id := "f1", timestamp := 3, type := TradeType.buy
    tokenAddress := "0x6982508145454Ce325dDbE47a25d4ec3d2311933"
    tokenSymbol := "PEPE", amount := 0, price := 1/100000
    gasUsed := 140000, gasFee := 3/100, totalCost := 3/100
    profit := none, status := TradeStatus.failed }

/-- A sample completed sell trade of a token the ledger holds no position in. -/
def sampleOrphanSell : Trade :=
  { id := "s2", timestamp := 4, type := TradeType.sell
    tokenAddress := "0xba2ae424d960c26247dd6c32edc70b295c744c43"
    tokenSymbol := "DOGE", amount := 10, price := 8/100
    gasUsed := 140000, gasFee := 1/20, totalCost := 3/4
    profit := some 0, status := TradeStatus.completed }

/-! ### Claims -/

/-- C1: applying a trade through the ledger's `addTrade` changes the balance
by exactly the claimed delta: a completed buy debits `totalCost`, a completed
sell (with a matching open position) credits `totalCost`, and a failed trade
debits `gasFee`. -/
theorem claim_C1_addTrade_balance (s : UserStats) (t : Trade) :
    (t.status = TradeStatus.completed → t.type = TradeType.buy →
      (addTrade s t).balance = s.balance - t.totalCost) ∧
    (t.status = TradeStatus.completed → t.type = TradeType.sell →
      (∃ p ∈ s.activePositions, p.tokenAddress = t.tokenAddress) →
      (addTrade s t).balance = s.balance + t.totalCost) ∧
    (t.status = TradeStatus.failed →
      (addTrade s t).balance = s.balance - t.gasFee) := by
  refine ⟨fun hs ht => ?_, fun hs ht hex => ?_, fun hs => ?_⟩
  · rw [addTrade_completed_buy s t hs ht]
  · obtain ⟨p, hp, he⟩ := hex
    have hsome : (s.activePositions.find? (fun p => p.tokenAddress == t.tokenAddress)).isSome := by
      rw [List.find?_isSome]
      exact ⟨p, hp, by simp [he]⟩
    obtain ⟨pos, hf⟩ := Option.isSome_iff_exists.mp hsome
    rw [addTrade_completed_sell_some s t pos hs ht hf]
  · rw [addTrade_failed s t hs]

/-- Witness for C1 at the sample ledger and the three sample trades. -/
theorem claim_C1_witness :
    (addTrade sampleStats sampleBuy).balance = sampleStats.balance - sampleBuy.totalCost ∧
    (addTrade sampleStats sampleSell).balance = sampleStats.balance + sampleSell.totalCost ∧
    (addTrade sampleStats sampleFailed).balance = sampleStats.balance - sampleFailed.gasFee :=
  ⟨(claim_C1_addTrade_balance sampleStats sampleBuy).1 rfl rfl,
   (claim_C1_addTrade_balance sampleStats sampleSell).2.1 rfl rfl
     ⟨samplePosition, by simp [sampleStats], rfl⟩,
   (claim_C1_addTrade_balance sampleStats sampleFailed).2.2 rfl⟩

/-- C10: the ledger performs no position-existence validation on sells — a
completed sell with no matching open position still credits the balance by
`totalCost` and counts as a successful trade, while realized profit and the
open-positions list stay unchanged. -/
theorem claim_C10_orphan_sell (s : UserStats) (t : Trade)
    (hs : t.status = TradeStatus.completed) (ht : t.type = TradeType.sell)
    (hf : s.activePositions.find? (fun p => p.tokenAddress == t.tokenAddress) = none) :
    (addTrade s t).balance = s.balance + t.totalCost ∧
    (addTrade s t).successfulTrades = s.successfulTrades + 1 ∧
    (addTrade s t).totalProfit = s.totalProfit ∧
    (addTrade s t).activePositions = s.activePositions := by
  rw [addTrade_completed_sell_none s t hs ht hf]
  exact ⟨rfl, rfl, rfl, rfl⟩

/-- Witness for C10: selling DOGE on a ledger that only holds PEPE. -/
theorem claim_C10_witness :
    (addTrade sampleStats sampleOrphanSell).balance
        = sampleStats.balance + sampleOrphanSell.totalCost ∧
    (addTrade sampleStats sampleOrphanSell).successfulTrades
        = sampleStats.successfulTrades + 1 ∧
    (addTrade sampleStats sampleOrphanSell).totalProfit = sampleStats.totalProfit ∧
    (addTrade sampleStats sampleOrphanSell).activePositions = sampleStats.activePositions :=
  claim_C10_orphan_sell sampleStats sampleOrphanSell rfl rfl (by decide)

/-- C8: after every `addTrade` the stored win rate is the ratio of successful
to total trades expressed in percent (the `totalTrades = 0` guard of the
recomputation makes a fresh ledger report 0), and 3 successful of 4 total
yields 75.0. -/
theorem claim_C8_winRate (s : UserStats) (t : Trade) (u : ℤ) :
    (addTrade s t).winRate
        = ((addTrade s t).successfulTrades : ℚ) / ((addTrade s t).totalTrades : ℚ) * 100 ∧
    (initialStats u).winRate = 0 ∧
    ((addTrade s t).successfulTrades = 3 → (addTrade s t).totalTrades = 4 →
      (addTrade s t).winRate = 75) := by
  have hmain : (addTrade s t).winRate
      = ((addTrade s t).successfulTrades : ℚ) / ((addTrade s t).totalTrades : ℚ) * 100 := by
    cases hst : t.status with
    | pending => rw [addTrade_pending s t hst]; push_cast; ring_nf
    | failed => rw [addTrade_failed s t hst]; push_cast; ring_nf
    | completed =>
      cases hty : t.type with
      | buy => rw [addTrade_completed_buy s t hst hty]; push_cast; ring_nf
      | sell =>
        cases hf : s.activePositions.find? (fun p => p.tokenAddress == t.tokenAddress) with
        | none => rw [addTrade_completed_sell_none s t hst hty hf]; push_cast; ring_nf
        | some pos => rw [addTrade_completed_sell_some s t pos hst hty hf]; push_cast; ring_nf
  refine ⟨hmain, rfl, fun h3 h4 => ?_⟩
  rw [hmain, h3, h4]
  norm_num

/-- Witness for C8: a ledger at 3 successful of 4 total trades (three
completed buys and one failed trade applied to a fresh ledger) reports a win
rate of exactly 75. -/
theorem claim_C8_witness :
    (addTrade (addTrade (addTrade (addTrade (initialStats 7) sampleBuy) sampleBuy)
        sampleFailed) sampleBuy).winRate = 75 := by
  refine (claim_C8_winRate _ sampleBuy 7).2.2 ?_ ?_ <;>
    simp [addTrade, initialStats, sampleBuy, sampleFailed]

/-! ### Projections of `executeTrade` -/

theorem executeTrade_type_buy (cfg : BotConfig) (s : UserStats) (tx : MempoolTransaction)
    (r : ExecRandom) : (executeTrade cfg s tx r).type = TradeType.buy := rfl

theorem executeTrade_failed_shape (cfg : BotConfig) (s : UserStats) (tx : MempoolTransaction)
    (r : ExecRandom) (h : (executeTrade cfg s tx r).status = TradeStatus.failed) :
    (executeTrade cfg s tx r).amount = 0 ∧
    (executeTrade cfg s tx r).totalCost = (executeTrade cfg s tx r).gasFee := by
  by_cases hc : (analyzeAndSnipe tx s.balance r.willSucceed).reason = "Good opportunity detected"
  · exfalso
    simp [executeTrade, hc] at h
  · simp [executeTrade, hc]

theorem executeTrade_completed_totalCost (cfg : BotConfig) (s : UserStats)
    (tx : MempoolTransaction) (r : ExecRandom)
    (h : (executeTrade cfg s tx r).status = TradeStatus.completed) :
    (executeTrade cfg s tx r).totalCost
      = min (s.balance * (1/10 + r.tradeRand * (2/10))) (s.balance - 1) := by
  by_cases hc : (analyzeAndSnipe tx s.balance r.willSucceed).reason = "Good opportunity detected"
  · simp [executeTrade, hc]
  · exfalso
    simp [executeTrade, hc] at h

/-- A generated swap the evaluator accepts: target buys 1 ETH of PEPE at
50 gwei. -/
def sampleTx : MempoolTransaction :=
  { hash := "0xabc"
    fromAddr := "0xdef"
    toAddr := "0x7a250d5630B4cF539739dF2C5dAcb4c659F2488D"
    value := "1"
    gasPrice := 50
    timestamp := 0
    type := TxType.swap
    tokenIn := some "ETH"
    tokenOut := some "PEPE"
    amountIn := some 1
    amountOut := some "100000" }

/-- Random draws under which `executeTrade` loses the race (`willSucceed =
false`), with gas consumption at 70% of the limit. -/
def sampleFailRand : ExecRandom :=
  { tradeRand := 0, gasRand := 1/2, slipRand := 0
    willSucceed := false, tradeId := "e1", now := 5 }

/-- C3: a failed trade built by the evaluator's `executeTrade` carries
quantity 0 and total cost equal to its gas fee only, and applying any
failed-status trade through `addTrade` increments the failed count, debits
the balance by exactly the fee, accumulates the fee, and leaves the
open-positions list untouched. -/
theorem claim_C3_failed_trade_accounting (cfg : BotConfig) (s : UserStats)
    (tx : MempoolTransaction) (r : ExecRandom) (s' : UserStats) (t : Trade) :
    ((executeTrade cfg s tx r).status = TradeStatus.failed →
      (executeTrade cfg s tx r).amount = 0 ∧
      (executeTrade cfg s tx r).totalCost = (executeTrade cfg s tx r).gasFee) ∧
    (t.status = TradeStatus.failed →
      (addTrade s' t).failedTrades = s'.failedTrades + 1 ∧
      (addTrade s' t).balance = s'.balance - t.gasFee ∧
      (addTrade s' t).totalFees = s'.totalFees + t.gasFee ∧
      (addTrade s' t).activePositions = s'.activePositions) := by
  constructor
  · exact executeTrade_failed_shape cfg s tx r
  · intro h
    rw [addTrade_failed s' t h]
    exact ⟨rfl, rfl, rfl, rfl⟩

/-- Witness for C3: the concrete losing snipe of `sampleTx` and the concrete
failed trade `sampleFailed` applied to `sampleStats`. -/
theorem claim_C3_witness :
    (executeTrade config sampleStats sampleTx sampleFailRand).amount = 0 ∧
    (executeTrade config sampleStats sampleTx sampleFailRand).totalCost
      = (executeTrade config sampleStats sampleTx sampleFailRand).gasFee ∧
    (addTrade sampleStats sampleFailed).failedTrades = sampleStats.failedTrades + 1 ∧
    (addTrade sampleStats sampleFailed).balance = sampleStats.balance - sampleFailed.gasFee ∧
    (addTrade sampleStats sampleFailed).totalFees
      = sampleStats.totalFees + sampleFailed.gasFee ∧
    (addTrade sampleStats sampleFailed).activePositions = sampleStats.activePositions := by
  have hst : (executeTrade config sampleStats sampleTx sampleFailRand).status
      = TradeStatus.failed := by
    norm_num [executeTrade, analyzeAndSnipe, sampleTx, sampleStats, sampleFailRand,
      initialStats, config]
    exact fun h => absurd h (by decide)
  have h := claim_C3_failed_trade_accounting config sampleStats sampleTx sampleFailRand
    sampleStats sampleFailed
  exact ⟨(h.1 hst).1, (h.1 hst).2, (h.2 rfl).1, (h.2 rfl).2.1, (h.2 rfl).2.2.1,
    (h.2 rfl).2.2.2⟩

/-- C6: `analyzeAndSnipe` applies its rejection checks in the order
not-a-swap, insufficient balance (threshold 1), not-a-buy (source asset must
be ETH), too-small (notional below 0.5), returning the first matching
reason, and accepts (`shouldSnipe = true`) when no check fires. -/
theorem claim_C6_analyze_order (tx : MempoolTransaction) (bal : ℚ) (w : Bool) :
    (tx.type ≠ TxType.swap →
      analyzeAndSnipe tx bal w = ⟨false, "Not a swap transaction"⟩) ∧
    (tx.type = TxType.swap → bal < 1 →
      analyzeAndSnipe tx bal w = ⟨false, "Insufficient balance"⟩) ∧
    (tx.type = TxType.swap → ¬bal < 1 → tx.tokenIn ≠ some "ETH" →
      analyzeAndSnipe tx bal w = ⟨false, "Not a buy transaction"⟩) ∧
    (tx.type = TxType.swap → ¬bal < 1 → tx.tokenIn = some "ETH" →
      tx.amountIn.getD 0 < 1/2 →
      analyzeAndSnipe tx bal w = ⟨false, "Transaction too small"⟩) ∧
    (tx.type = TxType.swap → ¬bal < 1 → tx.tokenIn = some "ETH" →
      ¬tx.amountIn.getD 0 < 1/2 →
      (analyzeAndSnipe tx bal w).shouldSnipe = true) := by
  refine ⟨fun h1 => ?_, fun h1 h2 => ?_, fun h1 h2 h3 => ?_,
    fun h1 h2 h3 h4 => ?_, fun h1 h2 h3 h4 => ?_⟩
  · simp [analyzeAndSnipe, h1]
  · simp [analyzeAndSnipe, h1, h2]
  · simp [analyzeAndSnipe, h1, h2, h3]
  · norm_num [analyzeAndSnipe, h1, h2, h3, h4]
  · norm_num [analyzeAndSnipe, h1, h2, h3, h4]

/-- A transfer event (not a swap). -/
def txTransfer : MempoolTransaction := { sampleTx with type := TxType.transfer }

/-- A sell-direction swap (source asset is PEPE, not ETH). -/
def txSellDir : MempoolTransaction :=
  { sampleTx with tokenIn := some "PEPE", tokenOut := some "ETH" }

/-- A buy-direction swap whose notional 0.1 ETH is below the 0.5 filter. -/
def txSmall : MempoolTransaction := { sampleTx with amountIn := some (1/10) }

/-- Witness for C6: each rejection reason and the acceptance case at
concrete events and balances. -/
theorem claim_C6_witness :
    analyzeAndSnipe txTransfer 20 true = ⟨false, "Not a swap transaction"⟩ ∧
    analyzeAndSnipe sampleTx (1/2) true = ⟨false, "Insufficient balance"⟩ ∧
    analyzeAndSnipe txSellDir 20 true = ⟨false, "Not a buy transaction"⟩ ∧
    analyzeAndSnipe txSmall 20 true = ⟨false, "Transaction too small"⟩ ∧
    (analyzeAndSnipe sampleTx 20 true).shouldSnipe = true :=
  ⟨(claim_C6_analyze_order txTransfer 20 true).1 (by simp [txTransfer, sampleTx]),
   (claim_C6_analyze_order sampleTx (1/2) true).2.1 rfl (by norm_num),
   (claim_C6_analyze_order txSellDir 20 true).2.2.1 rfl (by norm_num)
     (by simp [txSellDir, sampleTx]),
   (claim_C6_analyze_order txSmall 20 true).2.2.2.1 rfl (by norm_num) rfl
     (by norm_num [txSmall, sampleTx]),
   (claim_C6_analyze_order sampleTx 20 true).2.2.2.2 rfl (by norm_num) rfl
     (by norm_num [sampleTx])⟩

/-! ### `find?` / `updateFirst` / `removeFirst` interaction -/

theorem mem_of_mem_removeFirst {p : α → Bool} :
    ∀ {l : List α} {y : α}, y ∈ removeFirst p l → y ∈ l := by
  intro l
  induction l with
  | nil => intro y h; exact absurd h (by simp [removeFirst])
  | cons x xs ih =>
    intro y h
    cases hx : p x with
    | true =>
      rw [removeFirst, if_pos hx] at h
      exact List.mem_cons_of_mem x h
    | false =>
      rw [removeFirst, if_neg (by simp [hx])] at h
      rcases List.mem_cons.mp h with h | h
      · exact h ▸ List.mem_cons_self x xs
      · exact List.mem_cons_of_mem x (ih h)

theorem mem_updateFirst {p : α → Bool} {f : α → α} :
    ∀ {l : List α} {y : α}, y ∈ updateFirst p f l →
      y ∈ l ∨ ∃ x, x ∈ l ∧ p x = true ∧ y = f x := by
  intro l
  induction l with
  | nil => intro y h; exact absurd h (by simp [updateFirst])
  | cons x xs ih =>
    intro y h
    cases hx : p x with
    | true =>
      rw [updateFirst, if_pos hx] at h
      rcases List.mem_cons.mp h with h | h
      · exact Or.inr ⟨x, List.mem_cons_self x xs, hx, h⟩
      · exact Or.inl (List.mem_cons_of_mem x h)
    | false =>
      rw [updateFirst, if_neg (by simp [hx])] at h
      rcases List.mem_cons.mp h with h | h
      · exact Or.inl (h ▸ List.mem_cons_self x xs)
      · rcases ih h with h | ⟨z, hz, hpz, hy⟩
        · exact Or.inl (List.mem_cons_of_mem x h)
        · exact Or.inr ⟨z, List.mem_cons_of_mem x hz, hpz, hy⟩

theorem find?_updateFirst {p : α → Bool} {f : α → α} :
    ∀ {l : List α} {a : α}, l.find? p = some a → p (f a) = true →
      (updateFirst p f l).find? p = some (f a) := by
  intro l
  induction l with
  | nil => intro a h; simp at h
  | cons x xs ih =>
    intro a h hfa
    cases hx : p x with
    | true =>
      rw [List.find?_cons_of_pos _ hx] at h
      injection h with h
      subst h
      rw [updateFirst, if_pos hx]
      exact List.find?_cons_of_pos _ hfa
    | false =>
      rw [List.find?_cons_of_neg _ (by simp [hx])] at h
      rw [updateFirst, if_neg (by simp [hx]),
        List.find?_cons_of_neg _ (by simp [hx])]
      exact ih h hfa

/-- The open-positions list holds at most one position per asset (unique by
token address), as the spec's data model requires. -/
def UniqueAddrs (ps : List Position) : Prop :=
  ps.Pairwise (fun p q => p.tokenAddress ≠ q.tokenAddress)

theorem find?_removeFirst_of_pairwise {a : String} :
    ∀ {l : List Position} {pos : Position}, UniqueAddrs l →
      l.find? (fun p => p.tokenAddress == a) = some pos →
      (removeFirst (fun p => p.tokenAddress == a) l).find?
        (fun p => p.tokenAddress == a) = none := by
  intro l
  induction l with
  | nil => intro pos _ h; simp at h
  | cons x xs ih =>
    intro pos hu hf
    rcases List.pairwise_cons.mp hu with ⟨hx2, hu'⟩
    cases hx : (x.tokenAddress == a) with
    | true =>
      rw [removeFirst, if_pos hx]
      rw [List.find?_eq_none]
      intro y hy
      have hxa : x.tokenAddress = a := by simpa using hx
      have := hx2 y hy
      simp only [beq_iff_eq]
      rw [← hxa]
      exact fun hc => this hc.symm
    | false =>
      rw [List.find?_cons_of_neg _ (by simp [hx])] at hf
      rw [removeFirst, if_neg (by simp [hx]),
        List.find?_cons_of_neg _ (by simp [hx])]
      exact ih hu' hf

theorem find?_eq_of_mem_pairwise {a : String} :
    ∀ {l : List Position} {x : Position}, UniqueAddrs l → x ∈ l →
      (x.tokenAddress == a) = true →
      l.find? (fun p => p.tokenAddress == a) = some x := by
  intro l
  induction l with
  | nil => intro x _ hm; simp at hm
  | cons z zs ih =>
    intro x hu hm hx
    rcases List.pairwise_cons.mp hu with ⟨hz2, hu'⟩
    cases hz : (z.tokenAddress == a) with
    | true =>
      rw [List.find?_cons_of_pos (p := fun p => p.tokenAddress == a) zs hz]
      rcases List.mem_cons.mp hm with hm | hm
      · rw [hm]
      · exfalso
        have hza : z.tokenAddress = a := by simpa using hz
        have hxa : x.tokenAddress = a := by simpa using hx
        exact hz2 x hm (hza.trans hxa.symm)
    | false =>
      rcases List.mem_cons.mp hm with hm | hm
      · exfalso
        rw [← hm] at hz
        rw [hx] at hz
        exact Bool.noConfusion hz
      · rw [List.find?_cons_of_neg _ (by simp [hz])]
        exact ih hu' hm hx

/-- C4: a completed sell against an existing position fully removes the
position whenever the sold quantity reaches or exceeds the held quantity
(100% and over-100% sells behave identically: both leave the same list,
with no position for the asset), otherwise merely reduces the held quantity
by the sold amount; afterwards every open position still has strictly
positive quantity — no negative rows and no zero rows. -/
theorem claim_C4_sell_closure (s : UserStats) (t : Trade) (pos : Position)
    (hs : t.status = TradeStatus.completed) (ht : t.type = TradeType.sell)
    (hf : s.activePositions.find? (fun p => p.tokenAddress == t.tokenAddress) = some pos)
    (hu : UniqueAddrs s.activePositions)
    (hpos : ∀ p ∈ s.activePositions, 0 < p.amount) :
    (pos.amount ≤ t.amount →
      (addTrade s t).activePositions
          = removeFirst (fun p => p.tokenAddress == t.tokenAddress) s.activePositions ∧
      (addTrade s t).activePositions.find?
        (fun p => p.tokenAddress == t.tokenAddress) = none) ∧
    (t.amount < pos.amount →
      (addTrade s t).activePositions.find?
          (fun p => p.tokenAddress == t.tokenAddress)
        = some { pos with amount := pos.amount - t.amount }) ∧
    (∀ p ∈ (addTrade s t).activePositions, 0 < p.amount) := by
  have hrec := addTrade_completed_sell_some s t pos hs ht hf
  have hq' := List.find?_some hf
  have hq : (pos.tokenAddress == t.tokenAddress) = true := hq'
  refine ⟨fun hle => ?_, fun hlt => ?_, fun p hp => ?_⟩
  · have hite : (addTrade s t).activePositions
        = removeFirst (fun p => p.tokenAddress == t.tokenAddress) s.activePositions := by
      rw [hrec]
      simp [ge_iff_le, hle]
    exact ⟨hite, by rw [hite]; exact find?_removeFirst_of_pairwise hu hf⟩
  · have hite : (addTrade s t).activePositions
        = updateFirst (fun p => p.tokenAddress == t.tokenAddress)
            (fun p => { p with amount := p.amount - t.amount }) s.activePositions := by
      rw [hrec]
      simp [ge_iff_le, not_le.mpr hlt]
    rw [hite]
    exact find?_updateFirst hf (by simpa using hq)
  · rw [hrec] at hp
    simp only at hp
    by_cases hc : t.amount ≥ pos.amount
    · rw [if_pos hc] at hp
      exact hpos p (mem_of_mem_removeFirst hp)
    · rw [if_neg hc] at hp
      rcases mem_updateFirst hp with hp | ⟨x, hx, hpx, hy⟩
      · exact hpos p hp
      · have : s.activePositions.find? (fun p => p.tokenAddress == t.tokenAddress)
            = some x := find?_eq_of_mem_pairwise hu hx hpx
        rw [hf] at this
        injection this with this
        subst this
        subst hy
        simp only
        have := not_le.mp hc
        linarith

/-- A 100% sell of the sample position (1000 of 1000 units). -/
def sampleSellAll : Trade := { sampleSell with amount := 1000, id := "s3" }

/-- Witness for C4: selling all 1000 units of the sample PEPE position
removes it; selling 500 leaves a 500-unit position; quantities stay
positive. -/
theorem claim_C4_witness :
    ((addTrade sampleStats sampleSellAll).activePositions.find?
        (fun p => p.tokenAddress == sampleSellAll.tokenAddress) = none) ∧
    ((addTrade sampleStats sampleSell).activePositions.find?
        (fun p => p.tokenAddress == sampleSell.tokenAddress)
      = some { samplePosition with amount := samplePosition.amount - sampleSell.amount }) ∧
    (∀ p ∈ (addTrade sampleStats sampleSell).activePositions, 0 < p.amount) := by
  have hu : UniqueAddrs sampleStats.activePositions := by
    simp [UniqueAddrs, sampleStats]
  have hpos : ∀ p ∈ sampleStats.activePositions, 0 < p.amount := by
    intro p hp
    simp [sampleStats] at hp
    rw [hp]
    norm_num [samplePosition]
  have hall := claim_C4_sell_closure sampleStats sampleSellAll samplePosition rfl rfl rfl hu hpos
  have hpart := claim_C4_sell_closure sampleStats sampleSell samplePosition rfl rfl rfl hu hpos
  exact ⟨(hall.1 (by norm_num [samplePosition, sampleSellAll, sampleSell])).2,
    hpart.2.1 (by norm_num [samplePosition, sampleSell]),
    hpart.2.2⟩

/-! ### Trade history -/

theorem take_append_take (a b : List α) (n : ℕ) :
    (a ++ b.take n).take n = (a ++ b).take n := by
  rw [List.take_append_eq_append_take, List.take_append_eq_append_take, List.take_take]
  congr 2
  omega

theorem addTrade_tradeHistory (s : UserStats) (t : Trade) :
    (addTrade s t).tradeHistory = (t :: s.tradeHistory).take 50 := by
  cases hst : t.status with
  | pending => rw [addTrade_pending s t hst]
  | failed => rw [addTrade_failed s t hst]
  | completed =>
    cases hty : t.type with
    | buy => rw [addTrade_completed_buy s t hst hty]
    | sell =>
      cases hf : s.activePositions.find? (fun p => p.tokenAddress == t.tokenAddress) with
      | none => rw [addTrade_completed_sell_none s t hst hty hf]
      | some pos => rw [addTrade_completed_sell_some s t pos hst hty hf]

theorem foldl_addTrade_tradeHistory (ts : List Trade) :
    ∀ s : UserStats, s.tradeHistory.length ≤ 50 →
      (List.foldl addTrade s ts).tradeHistory = (ts.reverse ++ s.tradeHistory).take 50 := by
  induction ts with
  | nil =>
    intro s hs
    simpa using (List.take_of_length_le hs).symm
  | cons t ts ih =>
    intro s hs
    rw [List.foldl_cons]
    rw [ih (addTrade s t) (by rw [addTrade_tradeHistory]; simp)]
    rw [addTrade_tradeHistory, take_append_take]
    rw [List.reverse_cons, List.append_assoc]
    rfl

/-- C7: `addTrade` keeps the history most-recent-first and bounded: the new
trade lands in first position, the length never exceeds 50, and after
inserting 60 trades into a fresh history exactly the 50 most recent remain,
newest first (the oldest ten are evicted). -/
theorem claim_C7_history_bound (s : UserStats) (t : Trade) (ts : List Trade) :
    (addTrade s t).tradeHistory.head? = some t ∧
    (addTrade s t).tradeHistory.length ≤ 50 ∧
    (s.tradeHistory = [] → ts.length = 60 →
      (List.foldl addTrade s ts).tradeHistory = ts.reverse.take 50 ∧
      (List.foldl addTrade s ts).tradeHistory.length = 50) := by
  refine ⟨?_, ?_, fun h0 h60 => ?_⟩
  · rw [addTrade_tradeHistory]
    rfl
  · rw [addTrade_tradeHistory]
    simp
  · have hl : (List.foldl addTrade s ts).tradeHistory = ts.reverse.take 50 := by
      rw [foldl_addTrade_tradeHistory ts s (by rw [h0]; simp), h0, List.append_nil]
    refine ⟨hl, ?_⟩
    rw [hl]
    simp [h60]

/-- Witness for C7 : sixty copies of the sample failed trade inserted into a
fresh ledger. -/
theorem claim_C7_witness :
    (addTrade (initialStats 7) sampleBuy).tradeHistory.head? = some sampleBuy ∧
    (addTrade (initialStats 7) sampleBuy).tradeHistory.length ≤ 50 ∧
    (List.foldl addTrade (initialStats 7) (List.replicate 60 sampleFailed)).tradeHistory
        = (List.replicate 60 sampleFailed).reverse.take 50 ∧
    (List.foldl addTrade (initialStats 7)
        (List.replicate 60 sampleFailed)).tradeHistory.length = 50 := by
  have h := claim_C7_history_bound (initialStats 7) sampleBuy (List.replicate 60 sampleFailed)
  exact ⟨h.1, h.2.1, (h.2.2 rfl (by simp)).1, (h.2.2 rfl (by simp)).2⟩

/-! ### Weighted-average entry price -/

theorem upsertBuyPosition_find?_some {addr : String} (positions : List Position)
    (t : Trade) (pos : Position) (ha : t.tokenAddress = addr)
    (hf : positions.find? (fun p => p.tokenAddress == addr) = some pos) :
    (upsertBuyPosition positions t).find? (fun p => p.tokenAddress == addr)
      = some { pos with
          entryPrice := (pos.entryPrice * pos.amount + t.price * t.amount)
            / (pos.amount + t.amount)
          amount := pos.amount + t.amount } := by
  have hmem := List.mem_of_find?_eq_some hf
  have hq' := List.find?_some hf
  have hq : (pos.tokenAddress == addr) = true := hq'
  unfold upsertBuyPosition
  rw [ha, if_pos (List.any_eq_true.mpr ⟨pos, hmem, hq⟩)]
  exact find?_updateFirst hf hq

theorem upsertBuyPosition_find?_none {addr : String} (positions : List Position)
    (t : Trade) (ha : t.tokenAddress = addr)
    (hf : positions.find? (fun p => p.tokenAddress == addr) = none) :
    (upsertBuyPosition positions t).find? (fun p => p.tokenAddress == addr)
      = some
          { tokenAddress := t.tokenAddress
            tokenSymbol := t.tokenSymbol
            amount := t.amount
            entryPrice := t.price
            currentPrice := t.price
            unrealizedPnL := 0
            entryTime := t.timestamp } := by
  have hnone : ¬ positions.any (fun p => p.tokenAddress == addr) = true := by
    intro hc
    rcases List.any_eq_true.mp hc with ⟨x, hx, hq⟩
    exact List.find?_eq_none.mp hf x hx hq
  unfold upsertBuyPosition
  rw [ha, if_neg hnone, List.find?_append, hf, Option.none_or]
  rw [List.find?_cons_of_pos _ (by simp [ha])]

theorem foldl_buys_invariant (addr : String) :
    ∀ (ts : List Trade) (s : UserStats) (pos : Position),
      (∀ t ∈ ts, t.status = TradeStatus.completed ∧ t.type = TradeType.buy ∧
        t.tokenAddress = addr ∧ 0 < t.amount) →
      s.activePositions.find? (fun p => p.tokenAddress == addr) = some pos →
      0 < pos.amount →
      ∃ pos', (List.foldl addTrade s ts).activePositions.find?
          (fun p => p.tokenAddress == addr) = some pos' ∧
        pos'.amount = pos.amount + (ts.map Trade.amount).sum ∧
        pos'.entryPrice * pos'.amount
          = pos.entryPrice * pos.amount + (ts.map (fun t => t.amount * t.price)).sum ∧
        0 < pos'.amount := by
  intro ts
  induction ts with
  | nil =>
    intro s pos _ hf hpos
    exact ⟨pos, by simpa using hf, by simp, by simp, hpos⟩
  | cons t ts ih =>
    intro s pos hts hf hpos
    obtain ⟨hst, hty, haddr, hamt⟩ := hts t (List.mem_cons_self t ts)
    have hA : (0:ℚ) < pos.amount + t.amount := by linarith
    have hA' : pos.amount + t.amount ≠ 0 := ne_of_gt hA
    have hstep : (addTrade s t).activePositions.find? (fun p => p.tokenAddress == addr)
        = some { pos with
            entryPrice := (pos.entryPrice * pos.amount + t.price * t.amount)
              / (pos.amount + t.amount)
            amount := pos.amount + t.amount } := by
      rw [addTrade_completed_buy s t hst hty]
      exact upsertBuyPosition_find?_some s.activePositions t pos haddr hf
    obtain ⟨pos', hf', hamt', hcost', hpos'⟩ :=
      ih (addTrade s t) _ (fun u hu => hts u (List.mem_cons_of_mem t hu)) hstep hA
    refine ⟨pos', by simpa using hf', ?_, ?_, hpos'⟩
    · rw [hamt']
      simp only [List.map_cons, List.sum_cons]
      ring
    · rw [hcost']
      simp only [List.map_cons, List.sum_cons]
      rw [div_mul_cancel₀ _ hA']
      ring

/-- C2: starting from a ledger with no position in an asset, a non-empty
sequence of completed buys of that asset produces a position whose quantity
is the sum of the bought quantities and whose entry price is the
quantity-weighted average price Σ(qᵢ·pᵢ)/Σqᵢ (exact in `ℚ`; the source
computes the same expression in floating point). -/
theorem claim_C2_weighted_average (s : UserStats) (addr : String) (ts : List Trade)
    (hne : ts ≠ [])
    (hts : ∀ t ∈ ts, t.status = TradeStatus.completed ∧ t.type = TradeType.buy ∧
      t.tokenAddress = addr ∧ 0 < t.amount)
    (h0 : s.activePositions.find? (fun p => p.tokenAddress == addr) = none) :
    ∃ pos, (List.foldl addTrade s ts).activePositions.find?
        (fun p => p.tokenAddress == addr) = some pos ∧
      pos.amount = (ts.map Trade.amount).sum ∧
      pos.entryPrice = (ts.map (fun t => t.amount * t.price)).sum
        / (ts.map Trade.amount).sum := by
  cases ts with
  | nil => exact absurd rfl hne
  | cons t ts =>
    obtain ⟨hst, hty, haddr, hamt⟩ := hts t (List.mem_cons_self t ts)
    have hstep : (addTrade s t).activePositions.find? (fun p => p.tokenAddress == addr)
        = some
            { tokenAddress := t.tokenAddress
              tokenSymbol := t.tokenSymbol
              amount := t.amount
              entryPrice := t.price
              currentPrice := t.price
              unrealizedPnL := 0
              entryTime := t.timestamp } := by
      rw [addTrade_completed_buy s t hst hty]
      exact upsertBuyPosition_find?_none s.activePositions t haddr h0
    obtain ⟨pos, hf, hamt', hcost', hpos'⟩ :=
      foldl_buys_invariant addr ts (addTrade s t) _
        (fun u hu => hts u (List.mem_cons_of_mem t hu)) hstep hamt
    refine ⟨pos, by simpa using hf, ?_, ?_⟩
    · rw [hamt']
      simp
    · have hA : ((t :: ts).map Trade.amount).sum = pos.amount := by
        rw [hamt']
        simp
      have hS : ((t :: ts).map (fun t => t.amount * t.price)).sum
          = pos.entryPrice * pos.amount := by
        rw [hcost']
        simp only [List.map_cons, List.sum_cons]
        ring
      rw [hA, hS, mul_div_assoc, div_self (ne_of_gt hpos'), mul_one]

/-- A second sample buy: 1000 units at price 0.00002. -/
def sampleBuy2 : Trade := { sampleBuy with price := 2/100000, id := "b2" }

/-- Witness for C2: two buys of 1000 PEPE at 0.00001 and 0.00002 on a fresh
ledger yield a 2000-unit position at the weighted average entry price. -/
theorem claim_C2_witness :
    ∃ pos, (List.foldl addTrade (initialStats 7) [sampleBuy, sampleBuy2]).activePositions.find?
        (fun p => p.tokenAddress == "0x6982508145454Ce325dDbE47a25d4ec3d2311933") = some pos ∧
      pos.amount = ([sampleBuy, sampleBuy2].map Trade.amount).sum ∧
      pos.entryPrice = ([sampleBuy, sampleBuy2].map (fun t => t.amount * t.price)).sum
        / ([sampleBuy, sampleBuy2].map Trade.amount).sum := by
  refine claim_C2_weighted_average (initialStats 7)
    "0x6982508145454Ce325dDbE47a25d4ec3d2311933" [sampleBuy, sampleBuy2]
    (by simp) ?_ rfl
  intro t ht
  rcases List.mem_cons.mp ht with h | h
  · subst h
    exact ⟨rfl, rfl, rfl, by norm_num [sampleBuy]⟩
  · rcases List.mem_cons.mp h with h | h
    · subst h
      exact ⟨rfl, rfl, rfl, by norm_num [sampleBuy2, sampleBuy]⟩
    · exact absurd h (by simp)

/-! ### Balance evolution and the negative-balance counterexample -/

theorem analyzeAndSnipe_reason_ne_good (tx : MempoolTransaction) (bal : ℚ) :
    (analyzeAndSnipe tx bal false).reason ≠ "Good opportunity detected" := by
  unfold analyzeAndSnipe
  by_cases h1 : tx.type ≠ TxType.swap
  · simp [h1]
  · by_cases h2 : bal < 1
    · simp [h1, h2]
    · by_cases h3 : (tx.tokenIn == some "ETH") = true
      · by_cases h4 : tx.amountIn.getD 0 < (2:ℚ)⁻¹
        · simp [h1, h2, h3, h4]
        · simp [h1, h2, h3, h4]
      · simp [h1, h2, h3]

theorem executeTrade_status_of_lost (cfg : BotConfig) (s : UserStats)
    (tx : MempoolTransaction) (r : ExecRandom) (h : r.willSucceed = false) :
    (executeTrade cfg s tx r).status = TradeStatus.failed := by
  have hne : (analyzeAndSnipe tx s.balance r.willSucceed).reason
      ≠ "Good opportunity detected" := by
    rw [h]
    exact analyzeAndSnipe_reason_ne_good tx s.balance
  simp [executeTrade, hne]

/-- The fresh ledger of user 7.  Evaluated state of the counterexample run. -/
def st0 : UserStats := initialStats 7

/-- The ledger after the first lost snipe of `sampleTx` (a failed trade whose
gas fee is 8211/550 ≈ €14.93 at 140000 gas and 51 gwei). -/
def st1 : UserStats := addTrade st0 (executeTrade config st0 sampleTx sampleFailRand)

/-- The ledger after the second identical lost snipe: its balance is
negative. -/
def badState : UserStats :=
  addTrade st1 (executeTrade config st1 sampleTx sampleFailRand)

theorem executeTrade_gasFee_concrete (s : UserStats) :
    (executeTrade config s sampleTx sampleFailRand).gasFee = 8211/550 := by
  norm_num [executeTrade, config, sampleTx, sampleFailRand, ethToEur, calculateGasFee,
    ETH_PRICE_USD, EUR_USD_RATE]

theorem st1_balance : st1.balance = 2789/550 := by
  rw [st1, addTrade_failed _ _ (executeTrade_status_of_lost config st0 sampleTx
    sampleFailRand rfl), executeTrade_gasFee_concrete]
  norm_num [st0, initialStats, config]

theorem badState_balance : badState.balance = -2711/275 := by
  rw [badState, addTrade_failed _ _ (executeTrade_status_of_lost config st1 sampleTx
    sampleFailRand rfl), executeTrade_gasFee_concrete, st1_balance]
  norm_num

theorem sampleTx_generated : IsGeneratedTx sampleTx := by
  refine ⟨rfl, by norm_num [sampleTx], by norm_num [sampleTx],
    ⟨{ symbol := "PEPE", address := "0x6982508145454Ce325dDbE47a25d4ec3d2311933",
       price := 1/100000 }, by simp [DEMO_TOKENS], true, 1, by norm_num, by norm_num,
      rfl, rfl, rfl⟩⟩

theorem sampleFailRand_valid : sampleFailRand.Valid := by
  refine ⟨by norm_num [sampleFailRand], by norm_num [sampleFailRand],
    by norm_num [sampleFailRand], by norm_num [sampleFailRand],
    by norm_num [sampleFailRand], by norm_num [sampleFailRand]⟩

theorem badState_reachable : Reachable badState := by
  have h0 : Reachable st0 := Reachable.init 7
  have hsn0 : (analyzeAndSnipe sampleTx st0.balance true).shouldSnipe = true := by
    norm_num [analyzeAndSnipe, sampleTx, st0, initialStats, config]
  have h1 : Reachable st1 :=
    Reachable.snipe st0 sampleTx true sampleFailRand h0 sampleTx_generated
      sampleFailRand_valid hsn0
  have hsn1 : (analyzeAndSnipe sampleTx st1.balance true).shouldSnipe = true := by
    rw [st1_balance]
    norm_num [analyzeAndSnipe, sampleTx]
  exact Reachable.snipe st1 sampleTx true sampleFailRand h1 sampleTx_generated
    sampleFailRand_valid hsn1

/-- C5 counterexample: a reachable ledger state with strictly negative
balance.  Starting from the configured initial balance 20, two consecutive
accepted-then-lost snipes of the same generated 50-gwei transaction each
debit a gas fee of 8211/550 ≈ €14.93, taking the balance from 20 to
2789/550 ≈ €5.07 (still above the minimum threshold 1, so the second
opportunity is accepted) and then to −2711/275 ≈ −€9.86 < 0. -/
theorem claim_C5_counterexample : Reachable badState ∧ badState.balance < 0 :=
  ⟨badState_reachable, by rw [badState_balance]; norm_num⟩

/-- C5 (amended): the evaluator rejects opportunities when the balance is
below the minimum threshold 1 and sizes buys so that at least 1 remains —
after a completed evaluator-issued buy the balance stays ≥ 1 — and a failed
trade debits exactly its gas fee; but that fee is not capped by the current
balance, so the balance of a reachable state can become negative. -/
theorem claim_C5_amended_balance (s : UserStats) (tx : MempoolTransaction)
    (r : ExecRandom) (s' : UserStats) (t : Trade) :
    (1 ≤ s.balance → (executeTrade config s tx r).status = TradeStatus.completed →
      1 ≤ (addTrade s (executeTrade config s tx r)).balance) ∧
    (t.status = TradeStatus.failed →
      (addTrade s' t).balance = s'.balance - t.gasFee) ∧
    (∃ u, Reachable u ∧ u.balance < 0) := by
  refine ⟨fun hb hc => ?_, fun hfail => ?_,
    ⟨badState, badState_reachable, by rw [badState_balance]; norm_num⟩⟩
  · rw [addTrade_completed_buy _ _ hc (executeTrade_type_buy config s tx r)]
    rw [executeTrade_completed_totalCost config s tx r hc]
    have hmin := min_le_right (s.balance * (1/10 + r.tradeRand * (2/10))) (s.balance - 1)
    simp only
    linarith
  · rw [addTrade_failed _ _ hfail]

/-- Random draws under which the inner `analyzeAndSnipe` coin is favorable,
so `executeTrade` completes. -/
def sampleWinRand : ExecRandom := { sampleFailRand with willSucceed := true }

/-- Witness for the amended C5: the concrete winning snipe on a fresh ledger
leaves the balance at 18 ≥ 1, and the sample failed trade debits exactly its
fee. -/
theorem claim_C5_witness :
    1 ≤ (addTrade (initialStats 7)
        (executeTrade config (initialStats 7) sampleTx sampleWinRand)).balance ∧
    (addTrade (initialStats 7) sampleFailed).balance
      = (initialStats 7).balance - sampleFailed.gasFee := by
  have h := claim_C5_amended_balance (initialStats 7) sampleTx sampleWinRand
    (initialStats 7) sampleFailed
  refine ⟨h.1 (by norm_num [initialStats, config]) ?_, h.2.1 rfl⟩
  norm_num [executeTrade, analyzeAndSnipe, sampleTx, sampleWinRand, sampleFailRand,
    initialStats, config]

/-! ### Generator (mempool monitor) lifecycle -/

theorem monitor_invariant (s : MonitorState) (h : MonitorReachable s) :
    (s.isMonitoring = true ↔ s.listeners ≠ ∅) ∧
    (s.isMonitoring = false → s.pendingTimer = none) ∧
    (∀ k, s.pendingTimer = some k → k < s.nextTimer) := by
  induction h with
  | init => simp [initialMonitor]
  | step s s' out hr hstep ih =>
    obtain ⟨ih1, ih2, ih3⟩ := ih
    cases hstep with
    | start u =>
      cases hm : s.isMonitoring with
      | true =>
        have hs' : startMonitoring s u = { s with listeners := insert u s.listeners } := by
          unfold startMonitoring
          rw [hm]
          rfl
        rw [hs']
        exact ⟨⟨fun _ => Finset.insert_ne_empty _ _, fun _ => hm⟩,
          fun hc => Bool.noConfusion (hm.symm.trans hc), ih3⟩
      | false =>
        have hs' : startMonitoring s u
            = { listeners := insert u s.listeners, isMonitoring := true,
                pendingTimer := some s.nextTimer, nextTimer := s.nextTimer + 1 } := by
          unfold startMonitoring
          rw [hm]
          rfl
        rw [hs']
        refine ⟨⟨fun _ => Finset.insert_ne_empty _ _, fun _ => rfl⟩,
          fun hc => Bool.noConfusion hc, ?_⟩
        intro k hk
        injection hk with hk
        exact hk ▸ Nat.lt_succ_self s.nextTimer
    | stop u =>
      by_cases he : s.listeners.erase u = ∅
      · have hs' : stopMonitoring s u
            = { listeners := s.listeners.erase u, isMonitoring := false,
                pendingTimer := none, nextTimer := s.nextTimer } := by
          unfold stopMonitoring
          rw [if_pos he]
        rw [hs']
        exact ⟨⟨fun hc => Bool.noConfusion hc, fun hc => absurd he hc⟩,
          fun _ => rfl, fun k hk => Option.noConfusion hk⟩
      · have hs' : stopMonitoring s u = { s with listeners := s.listeners.erase u } := by
          unfold stopMonitoring
          rw [if_neg he]
        rw [hs']
        have hne : s.listeners ≠ ∅ := fun hc => he (by rw [hc]; simp)
        exact ⟨⟨fun _ => he, fun _ => ih1.mpr hne⟩, ih2, ih3⟩
    | fire k hk =>
      cases hm : s.isMonitoring with
      | true =>
        have hs' : (fireTimer s).1
            = { s with pendingTimer := some s.nextTimer, nextTimer := s.nextTimer + 1 } := by
          unfold fireTimer
          rw [hm]
          rfl
        rw [hs']
        refine ⟨⟨fun _ => ih1.mp hm, fun _ => hm⟩,
          fun hc => Bool.noConfusion (hm.symm.trans hc), ?_⟩
        intro k' hk'
        injection hk' with hk'
        exact hk' ▸ Nat.lt_succ_self s.nextTimer
      | false =>
        have hs' : (fireTimer s).1 = { s with pendingTimer := none } := by
          unfold fireTimer
          rw [hm]
          rfl
        rw [hs']
        exact ⟨ih1, fun _ => rfl, fun k' hk' => Option.noConfusion hk'⟩

theorem monitorStep_inv {s : MonitorState} {o : Option (Finset ℤ)} {s' : MonitorState}
    (h : MonitorStep s o s') :
    (∃ u, o = none ∧ s' = startMonitoring s u) ∨
    (∃ u, o = none ∧ s' = stopMonitoring s u) ∨
    (s.pendingTimer ≠ none ∧ o = (fireTimer s).2 ∧ s' = (fireTimer s).1) := by
  cases h with
  | start u => exact Or.inl ⟨u, rfl, rfl⟩
  | stop u => exact Or.inr (Or.inl ⟨u, rfl, rfl⟩)
  | fire k hk =>
    refine Or.inr (Or.inr ⟨?_, rfl, rfl⟩)
    rw [hk]
    exact fun hc => Option.noConfusion hc

/-- C9: the generator's subscribe/unsubscribe lifecycle, on reachable
monitor states: no event is ever emitted while zero subscribers are
registered; every emitted event is broadcast to exactly the currently
registered subscribers (a nonempty set); the internal clock (the pending
timeout) exists only while at least one subscriber is registered; when the
monitor is idle nothing stale is scheduled, and a new subscription schedules
the fresh timer id `nextTimer` (strictly larger than every id scheduled so
far, so the clock restarts fresh rather than resuming a stale schedule); and
removing the last subscriber stops the clock exactly then. -/
theorem claim_C9_generator_lifecycle (s : MonitorState) (u : ℤ)
    (h : MonitorReachable s) :
    (s.listeners = ∅ → ∀ s' out, ¬ MonitorStep s (some out) s') ∧
    (∀ s' out, MonitorStep s (some out) s' → out = s.listeners ∧ out.Nonempty) ∧
    (s.pendingTimer ≠ none → s.listeners ≠ ∅) ∧
    (s.isMonitoring = false → s.pendingTimer = none ∧
      (startMonitoring s u).pendingTimer = some s.nextTimer) ∧
    (∀ k, s.pendingTimer = some k → k < s.nextTimer) ∧
    ((stopMonitoring s u).listeners = ∅ →
      (stopMonitoring s u).isMonitoring = false ∧
      (stopMonitoring s u).pendingTimer = none) := by
  obtain ⟨inv1, inv2, inv3⟩ := monitor_invariant s h
  have hbroadcast : ∀ s' out, MonitorStep s (some out) s' →
      out = s.listeners ∧ out.Nonempty := by
    intro s' out hstep
    rcases monitorStep_inv hstep with ⟨v, ho, _⟩ | ⟨v, ho, _⟩ | ⟨hp, ho, _⟩
    · exact Option.noConfusion ho
    · exact Option.noConfusion ho
    · by_cases hm : s.isMonitoring
      · have hout : (fireTimer s).2 = some s.listeners := by
          unfold fireTimer
          rw [if_pos hm]
        rw [hout] at ho
        injection ho with ho
        exact ⟨ho, ho ▸ Finset.nonempty_iff_ne_empty.mpr (inv1.mp hm)⟩
      · exact absurd (inv2 (eq_false_of_ne_true hm)) hp
  refine ⟨fun hemp s' out hstep => ?_, hbroadcast, fun hp => ?_, fun hm => ?_, inv3,
    fun hstop => ?_⟩
  · obtain ⟨ho, hne⟩ := hbroadcast s' out hstep
    rw [ho, hemp] at hne
    exact Finset.not_nonempty_empty hne
  · have hm : s.isMonitoring = true := by
      by_contra hm
      exact hp (inv2 (eq_false_of_ne_true hm))
    exact inv1.mp hm
  · refine ⟨inv2 hm, ?_⟩
    unfold startMonitoring
    simp [hm]
  · unfold stopMonitoring at hstop ⊢
    by_cases he : s.listeners.erase u = ∅
    · rw [if_pos (by simpa using he)]
      exact ⟨rfl, rfl⟩
    · rw [if_neg (by simpa using he)] at hstop
      exact absurd hstop he

/-- The monitor right after the first subscription. -/
def monitorAfterStart : MonitorState := startMonitoring initialMonitor 1

/-- Witness for C9: after the first subscription the pending timer exists
and hence the listener set is nonempty; an idle monitor holds no stale
timer. -/
theorem claim_C9_witness :
    monitorAfterStart.listeners ≠ ∅ ∧ initialMonitor.pendingTimer = none := by
  have hr : MonitorReachable monitorAfterStart :=
    MonitorReachable.step initialMonitor monitorAfterStart none MonitorReachable.init
      (MonitorStep.start initialMonitor 1)
  refine ⟨(claim_C9_generator_lifecycle monitorAfterStart 2 hr).2.2.1 ?_,
    ((claim_C9_generator_lifecycle initialMonitor 2 MonitorReachable.init).2.2.2.1
      rfl).1⟩
  simp [monitorAfterStart, startMonitoring, initialMonitor]

end Copytrader
